import Mathlib

/-!
Shallow embedding of the issue-migration tool in main.go of
cendhu/import-github-issues.  The tool copies issues, labels, milestones,
comments and cross-issue references from an exported snapshot into a target
repository through a remote API.  The remote API and the standard library
time parser are external collaborators; they are modelled as explicit
parameters (outcome functions), and each phase returns the list of remote
calls it performs together with its in-memory result.  Go maps are modelled
as association lists with overwriting insertion.
-/

namespace Migrate

/-- A label of a source issue, as decoded from the snapshot file
(Go struct Label in main.go: name, color, description). -/
structure Label where
  name : String
  color : String
  description : String
deriving DecidableEq

/-- A milestone of a source issue (Go struct Milestone in main.go:
title, description, optional due-date text). -/
structure Milestone where
  title : String
  description : String
  dueOn : Option String
deriving DecidableEq

/-- An author handle (Go struct User in main.go). -/
structure User where
  login : String
deriving DecidableEq

/-- A comment of a source issue (Go struct Comment in main.go). -/
structure Comment where
  body : String
  author : User
deriving DecidableEq

/-- A source issue (Go struct Issue in main.go). -/
structure Issue where
  number : Nat
  title : String
  body : String
  labels : List Label
  comments : List Comment
  milestone : Option Milestone
deriving DecidableEq

/-- Read access to an association list, modelling a Go map read. -/
def lookupA {κ α : Type} [DecidableEq κ] (k : κ) : List (κ × α) → Option α
  | [] => none
  | (k2, v) :: rest => if k2 = k then some v else lookupA k rest

/-- Overwriting insertion into an association list, modelling a Go map write. -/
def insertA {κ α : Type} [DecidableEq κ] (k : κ) (v : α) : List (κ × α) → List (κ × α)
  | [] => [(k, v)]
  | (k2, v2) :: rest => if k2 = k then (k, v) :: rest else (k2, v2) :: insertA k v rest

/-- Phase 1, function findLablesAndMilestones in main.go: scan all issues in
order and collect the labels keyed by name and the milestones keyed by title;
a later occurrence of a key overwrites an earlier one, as a Go map write does. -/
def findLablesAndMilestones (issues : List Issue) :
    List (String × Label) × List (String × Milestone) :=
  issues.foldl
    (fun acc issue =>
      (issue.labels.foldl (fun m l => insertA l.name l m) acc.1,
        match issue.milestone with
        | none => acc.2
        | some ms => insertA ms.title ms acc.2))
    ([], [])

/-- Loop body of createLabels in main.go: for each collected label whose name
is not among the existing label names, a creation call is issued (the list of
such calls is returned).  The success flag of each creation attempt,
createOutcome, is only logged by the Go code and never propagated. -/
def createLabelsLoop (existingLabelNames : List String) (createOutcome : Label → Bool) :
    List (String × Label) → List Label
  | [] => []
  | (name, label) :: rest =>
    if existingLabelNames.contains name then
      createLabelsLoop existingLabelNames createOutcome rest
    else
      label :: createLabelsLoop existingLabelNames createOutcome rest

/-- Function createLabels in main.go.  The initial fetch of existing labels is
an external call whose result is the fetchedLabelNames parameter: a failed
fetch (none) is the only error path, and in main a returned error aborts the
whole run. -/
def createLabels (fetchedLabelNames : Option (List String)) (createOutcome : Label → Bool)
    (labels : List (String × Label)) : Except String (List Label) :=
  match fetchedLabelNames with
  | none => Except.error "failed to fetch existing labels"
  | some existing => Except.ok (createLabelsLoop existing createOutcome labels)

/-- A milestone creation request as sent to the remote API by createMilestones
in main.go: title, description, and the parsed due timestamp when one was
present and parsed. -/
structure MilestoneRequest where
  title : String
  description : String
  dueOn : Option Nat
deriving DecidableEq

/-- The milestone object returned by a successful remote creation call; the Go
code reads back its title and number. -/
structure CreatedMilestone where
  title : String
  number : Nat
deriving DecidableEq

/-- Request construction inside the createMilestones loop in main.go: title and
description are always carried; the due date is carried only when the due-date
text is present and parseTime accepts it (a parse failure is logged and the
request proceeds without a due date). -/
def buildMilestoneRequest (parseTime : String → Option Nat) (ms : Milestone) :
    MilestoneRequest :=
  { title := ms.title
    description := ms.description
    dueOn :=
      match ms.dueOn with
      | none => none
      | some d =>
        match parseTime d with
        | none => none
        | some t => some t }

/-- Loop of createMilestones in main.go over the collected milestones, carrying
the title-to-number map m: a title already in the map is skipped; otherwise a
creation request is issued, and on success the created title and number are
inserted into the map.  Returns the final map and the list of creation
requests issued. -/
def createMilestonesLoop (parseTime : String → Option Nat)
    (createOutcome : MilestoneRequest → Option CreatedMilestone) :
    List (String × Milestone) → List (String × Nat) →
      List (String × Nat) × List MilestoneRequest
  | [], m => (m, [])
  | (title, ms) :: rest, m =>
    if (lookupA title m).isSome then
      createMilestonesLoop parseTime createOutcome rest m
    else
      let req := buildMilestoneRequest parseTime ms
      match createOutcome req with
      | none =>
        let r := createMilestonesLoop parseTime createOutcome rest m
        (r.1, req :: r.2)
      | some created =>
        let r := createMilestonesLoop parseTime createOutcome rest
          (insertA created.title created.number m)
        (r.1, req :: r.2)

/-- Pre-seeding of the milestone map in createMilestones in main.go: every
fetched existing milestone contributes its title and number. -/
def preseedMilestones (existing : List (String × Nat)) : List (String × Nat) :=
  existing.foldl (fun m tn => insertA tn.1 tn.2 m) []

/-- Function createMilestones in main.go.  The fetch of existing milestones
(state all) is an external call whose result is the fetchedMilestones
parameter; a failed fetch is the only error path. -/
def createMilestones (fetchedMilestones : Option (List (String × Nat)))
    (parseTime : String → Option Nat)
    (createOutcome : MilestoneRequest → Option CreatedMilestone)
    (milestones : List (String × Milestone)) :
    Except String (List (String × Nat) × List MilestoneRequest) :=
  match fetchedMilestones with
  | none => Except.error "failed to fetch existing milestones"
  | some existing =>
    Except.ok (createMilestonesLoop parseTime createOutcome milestones
      (preseedMilestones existing))

/-- An issue creation request as sent to the remote API by createIssueAndComment
in main.go: title, body, the list of label names, and an optional milestone
number. -/
structure IssueRequest where
  title : String
  body : String
  labels : List String
  milestone : Option Nat
deriving DecidableEq

/-- Request construction in createIssueAndComment in main.go: the label names
are accumulated by appending in order; the milestone number is attached only
when the issue has a milestone whose title is in the title-to-number map. -/
def buildIssueRequest (milestoneTitleToNum : List (String × Nat)) (issue : Issue) :
    IssueRequest :=
  { title := issue.title
    body := issue.body
    labels := issue.labels.foldl (fun acc l => acc ++ [l.name]) []
    milestone :=
      match issue.milestone with
      | none => none
      | some ms =>
        match lookupA ms.title milestoneTitleToNum with
        | some n => some n
        | none => none }

/-- The block written for one original comment into the consolidated comment
body in createIssueAndComment in main.go: an attribution line naming the
author, the comment body, and a separator. -/
def commentBlock (c : Comment) : String :=
  ("**Comment from @" ++ c.author.login ++ ":**\n\n") ++ c.body ++ "\n\n---\n\n"

/-- The consolidated comment body built in createIssueAndComment in main.go: a
fixed header followed by the block of each original comment, written in order
into a string builder. -/
def consolidatedCommentBody (comments : List Comment) : String :=
  comments.foldl (fun acc c => acc ++ commentBlock c)
    "### Comments from original issue:\n\n---\n\n"

/-- A comment creation call sent to the remote API. -/
structure CommentCall where
  issueNumber : Nat
  body : String
deriving DecidableEq

/-- The comment calls issued for one successfully created issue in
createIssueAndComment in main.go: one consolidated comment when the source
issue has at least one comment and the built body is nonempty, none
otherwise. -/
def commentCallsFor (issue : Issue) (newlyCreatedNumber : Nat) : List CommentCall :=
  if 0 < issue.comments.length then
    let combinedBody := consolidatedCommentBody issue.comments
    if 0 < combinedBody.length then
      [{ issueNumber := newlyCreatedNumber, body := combinedBody }]
    else []
  else []

/-- Loop of createIssueAndComment in main.go, carrying the old-to-new number
map and the comment calls issued so far.  For each issue a creation request is
issued; on failure the issue is skipped (no map entry, no comment), on success
the source number is mapped to the new number and the consolidated comment (if
any) is posted. -/
def createIssueAndCommentLoop (milestoneTitleToNum : List (String × Nat))
    (createOutcome : IssueRequest → Option Nat) :
    List Issue → List (Nat × Nat) → List CommentCall →
      List (Nat × Nat) × List CommentCall
  | [], oldToNew, calls => (oldToNew, calls)
  | issue :: rest, oldToNew, calls =>
    match createOutcome (buildIssueRequest milestoneTitleToNum issue) with
    | none => createIssueAndCommentLoop milestoneTitleToNum createOutcome rest oldToNew calls
    | some newNum =>
      createIssueAndCommentLoop milestoneTitleToNum createOutcome rest
        (insertA issue.number newNum oldToNew) (calls ++ commentCallsFor issue newNum)

/-- Function createIssueAndComment in main.go: process all source issues in
order starting from an empty map, returning the old-to-new number map and the
comment calls issued. -/
def createIssueAndComment (milestoneTitleToNum : List (String × Nat))
    (createOutcome : IssueRequest → Option Nat) (issues : List Issue) :
    List (Nat × Nat) × List CommentCall :=
  createIssueAndCommentLoop milestoneTitleToNum createOutcome issues [] []

/-- Value of a decimal digit run, most significant digit first, as computed by
the Go strconv parser on digit characters. -/
def digitsVal (ds : List Char) : Nat :=
  ds.foldl (fun n c => 10 * n + (c.toNat - '0'.toNat)) 0

/-- Go strconv.Atoi applied to a nonempty decimal digit string (the argument
of the replacement callback in updateIssueLinks in main.go, with the leading
hash removed): the exact value and a true flag when the value fits in a 64-bit
signed integer, otherwise the saturated maximum with a false flag standing for
the range error that the Go code discards. -/
def goAtoi (ds : List Char) : Nat × Bool :=
  let n := digitsVal ds
  if n ≤ 2 ^ 63 - 1 then (n, true) else (2 ^ 63 - 1, false)

/-- The replacement callback in updateIssueLinks in main.go, applied to one
regex match (a hash sign followed by the digit run ds): the digits are parsed
with the error discarded, and the match is replaced by a hash sign and the
mapped new number when the parsed number is in the map, else left unchanged. -/
def rewriteMatch (oldToNewIssueNumbers : List (Nat × Nat)) (ds : List Char) : List Char :=
  match lookupA (goAtoi ds).1 oldToNewIssueNumbers with
  | some newNum => '#' :: (Nat.repr newNum).data
  | none => '#' :: ds

/-- Emission step of the rewriting scan: a pending hash sign whose digit run
acc turned out empty is no match and is copied verbatim, while a nonempty
digit run forms a complete match which is rewritten. -/
def emitMatch (oldToNewIssueNumbers : List (Nat × Nat)) (acc : List Char) : List Char :=
  if acc.isEmpty then ['#'] else rewriteMatch oldToNewIssueNumbers acc

/-- The scanning automaton of regexp ReplaceAllStringFunc in updateIssueLinks
in main.go for the pattern of a hash sign followed by one or more digits.  The
pending state is none while scanning plain text, and some acc after a hash
sign has been consumed with acc the digits read so far; a match always takes
the maximal digit run and matches are found leftmost to rightmost. -/
def replaceHashRefsLoop (oldToNewIssueNumbers : List (Nat × Nat)) :
    Option (List Char) → List Char → List Char
  | none, [] => []
  | some acc, [] => emitMatch oldToNewIssueNumbers acc
  | none, c :: rest =>
    if c = '#' then replaceHashRefsLoop oldToNewIssueNumbers (some []) rest
    else c :: replaceHashRefsLoop oldToNewIssueNumbers none rest
  | some acc, c :: rest =>
    if c.isDigit then replaceHashRefsLoop oldToNewIssueNumbers (some (acc ++ [c])) rest
    else if c = '#' then
      emitMatch oldToNewIssueNumbers acc ++ replaceHashRefsLoop oldToNewIssueNumbers (some []) rest
    else
      emitMatch oldToNewIssueNumbers acc ++ c :: replaceHashRefsLoop oldToNewIssueNumbers none rest

/-- The full replacement pass of updateIssueLinks in main.go over a body. -/
def replaceHashRefs (oldToNewIssueNumbers : List (Nat × Nat)) (l : List Char) : List Char :=
  replaceHashRefsLoop oldToNewIssueNumbers none l

/-- A token of the match decomposition of a body: either one unmatched
character, or one match of the pattern (a hash sign followed by the nonempty
digit run carried by the token). -/
inductive RefTok where
  | raw (c : Char)
  | ref (ds : List Char)
deriving DecidableEq

/-- Emission step of the match decomposition: a pending hash sign with no
digits is an unmatched character, and a nonempty digit run is a match. -/
def emitTok (acc : List Char) : RefTok :=
  if acc.isEmpty then RefTok.raw '#' else RefTok.ref acc

/-- The decomposition of a body into regex matches and unmatched characters,
by the same scan as the replacement pass: leftmost matches, each consuming a
maximal digit run after its hash sign. -/
def tokenizeLoop : Option (List Char) → List Char → List RefTok
  | none, [] => []
  | some acc, [] => [emitTok acc]
  | none, c :: rest =>
    if c = '#' then tokenizeLoop (some []) rest
    else RefTok.raw c :: tokenizeLoop none rest
  | some acc, c :: rest =>
    if c.isDigit then tokenizeLoop (some (acc ++ [c])) rest
    else if c = '#' then emitTok acc :: tokenizeLoop (some []) rest
    else emitTok acc :: RefTok.raw c :: tokenizeLoop none rest

/-- The match decomposition of a whole body. -/
def tokenize (l : List Char) : List RefTok :=
  tokenizeLoop none l

/-- The original text of a token: an unmatched character stands for itself and
a match stands for its hash sign and digit run. -/
def origTok : RefTok → List Char
  | RefTok.raw c => [c]
  | RefTok.ref ds => '#' :: ds

/-- Modelled from the spec: the per-match replacement rule of the Reference
Rewriter, stated on one token.  An unmatched character is kept; a match whose
parsed number has an entry in the mapping becomes a hash sign followed by the
new number, and a match whose number has no entry is left unchanged.  The
digits are parsed as the Go code parses them (goAtoi). -/
def renderTok (oldToNewIssueNumbers : List (Nat × Nat)) : RefTok → List Char
  | RefTok.raw c => [c]
  | RefTok.ref ds =>
    match lookupA (goAtoi ds).1 oldToNewIssueNumbers with
    | some newNum => '#' :: (Nat.repr newNum).data
    | none => '#' :: ds

/-- Modelled from the spec: the same per-match replacement rule, but with the
digit run parsed exactly as a number, without the machine-integer saturation
of strconv.Atoi.  Used to state that the discarded parse error is harmless. -/
def renderTokExact (oldToNewIssueNumbers : List (Nat × Nat)) : RefTok → List Char
  | RefTok.raw c => [c]
  | RefTok.ref ds =>
    match lookupA (digitsVal ds) oldToNewIssueNumbers with
    | some newNum => '#' :: (Nat.repr newNum).data
    | none => '#' :: ds

/-- Whether a text contains any substring matching the pattern of the
rewriter, that is a hash sign immediately followed by a digit. -/
def hasHashRef : List Char → Bool
  | [] => false
  | [_] => false
  | c :: d :: rest => ((c == '#') && d.isDigit) || hasHashRef (d :: rest)

/-- The rewritten body computed in updateIssueLinks in main.go. -/
def updateBody (oldToNewIssueNumbers : List (Nat × Nat)) (body : String) : String :=
  String.mk (replaceHashRefs oldToNewIssueNumbers body.data)

/-- An issue edit call sent to the remote API by updateIssueLinks in main.go. -/
structure EditCall where
  issueNumber : Nat
  body : String
deriving DecidableEq

/-- The edit calls issued for one source issue by updateIssueLinks in main.go:
an issue without a map entry is skipped, and an edit is submitted only when
the rewritten body differs from the original. -/
def editCallsFor (oldToNewIssueNumbers : List (Nat × Nat)) (issue : Issue) : List EditCall :=
  match lookupA issue.number oldToNewIssueNumbers with
  | none => []
  | some newlyCreatedNumber =>
    let updatedBody := updateBody oldToNewIssueNumbers issue.body
    if updatedBody ≠ issue.body then
      [{ issueNumber := newlyCreatedNumber, body := updatedBody }]
    else []

/-- Function updateIssueLinks in main.go: the edit calls issued over all
source issues, in order. -/
def updateIssueLinks (oldToNewIssueNumbers : List (Nat × Nat)) (issues : List Issue) :
    List EditCall :=
  issues.flatMap (editCallsFor oldToNewIssueNumbers)

theorem emitMatch_eq_render (m : List (Nat × Nat)) (acc : List Char) :
    emitMatch m acc = renderTok m (emitTok acc) := by
  by_cases h : acc.isEmpty <;> simp [emitMatch, emitTok, h, renderTok, rewriteMatch]

theorem replaceLoop_eq_render (m : List (Nat × Nat)) (l : List Char) :
    ∀ st : Option (List Char),
      replaceHashRefsLoop m st l = ((tokenizeLoop st l).map (renderTok m)).flatten := by
  induction l with
  | nil =>
    intro st
    cases st <;> simp [replaceHashRefsLoop, tokenizeLoop, emitMatch_eq_render]
  | cons c rest ih =>
    intro st
    cases st with
    | none =>
      by_cases h : c = '#' <;> simp [replaceHashRefsLoop, tokenizeLoop, h, ih, renderTok]
    | some acc =>
      by_cases hd : c.isDigit
      · simp [replaceHashRefsLoop, tokenizeLoop, hd, ih]
      · by_cases h : c = '#' <;>
          simp [replaceHashRefsLoop, tokenizeLoop, hd, h, ih, emitMatch_eq_render, renderTok]

theorem replace_eq_render (m : List (Nat × Nat)) (l : List Char) :
    replaceHashRefs m l = ((tokenize l).map (renderTok m)).flatten :=
  replaceLoop_eq_render m l none

/-- The original text still pending inside the scanning automaton. -/
def pendingOrig : Option (List Char) → List Char
  | none => []
  | some acc => '#' :: acc

theorem origTok_raw (c : Char) : origTok (RefTok.raw c) = [c] := rfl

theorem origTok_emitTok (acc : List Char) : origTok (emitTok acc) = '#' :: acc := by
  by_cases h : acc.isEmpty
  · rw [List.isEmpty_iff] at h
    subst h
    simp [emitTok, origTok]
  · simp [emitTok, origTok, h]

theorem tokenizeLoop_orig (l : List Char) :
    ∀ st : Option (List Char),
      ((tokenizeLoop st l).map origTok).flatten = pendingOrig st ++ l := by
  induction l with
  | nil =>
    intro st
    cases st <;> simp [tokenizeLoop, pendingOrig, origTok_emitTok]
  | cons c rest ih =>
    intro st
    cases st with
    | none =>
      by_cases h : c = '#' <;> simp [tokenizeLoop, h, ih, pendingOrig, origTok_raw]
    | some acc =>
      by_cases hd : c.isDigit
      · simp [tokenizeLoop, hd, ih, pendingOrig]
      · by_cases h : c = '#' <;>
          simp [tokenizeLoop, hd, h, ih, pendingOrig, origTok_emitTok, origTok_raw]

theorem tokenize_orig (l : List Char) : ((tokenize l).map origTok).flatten = l := by
  simpa [tokenize, pendingOrig] using tokenizeLoop_orig l none

theorem emitTok_eq_ref {acc ds : List Char} (h : emitTok acc = RefTok.ref ds) :
    ds = acc ∧ acc ≠ [] := by
  by_cases he : acc.isEmpty
  · simp [emitTok, he] at h
  · simp [emitTok, he] at h
    simp at he
    exact ⟨h.symm, he⟩

theorem tokenizeLoop_ref_digits (l : List Char) :
    ∀ st : Option (List Char), (∀ a, st = some a → a.all Char.isDigit) →
      ∀ ds, RefTok.ref ds ∈ tokenizeLoop st l → ds ≠ [] ∧ ds.all Char.isDigit := by
  induction l with
  | nil =>
    intro st hst ds hmem
    cases st with
    | none => simp [tokenizeLoop] at hmem
    | some acc =>
      simp only [tokenizeLoop, List.mem_singleton] at hmem
      obtain ⟨rfl, hne⟩ := emitTok_eq_ref hmem.symm
      exact ⟨hne, hst ds rfl⟩
  | cons c rest ih =>
    intro st hst ds hmem
    cases st with
    | none =>
      by_cases h : c = '#'
      · simp [tokenizeLoop, h] at hmem
        exact ih (some []) (by intro a ha; cases ha; simp) ds hmem
      · simp [tokenizeLoop, h] at hmem
        exact ih none (by intro a ha; cases ha) ds hmem
    | some acc =>
      have hacc : acc.all Char.isDigit := hst acc rfl
      by_cases hd : c.isDigit
      · simp [tokenizeLoop, hd] at hmem
        refine ih (some (acc ++ [c])) ?_ ds hmem
        intro a ha
        cases ha
        simp [List.all_append, hacc, hd]
      · by_cases h : c = '#'
        · simp [tokenizeLoop, hd, h] at hmem
          rcases hmem with hmem | hmem
          · obtain ⟨rfl, hne⟩ := emitTok_eq_ref hmem.symm
            exact ⟨hne, hacc⟩
          · exact ih (some []) (by intro a ha; cases ha; simp) ds hmem
        · simp [tokenizeLoop, hd, h] at hmem
          rcases hmem with hmem | hmem
          · obtain ⟨rfl, hne⟩ := emitTok_eq_ref hmem.symm
            exact ⟨hne, hacc⟩
          · exact ih none (by intro a ha; cases ha) ds hmem

theorem tokenize_ref_digits (l : List Char) (ds : List Char)
    (h : RefTok.ref ds ∈ tokenize l) : ds ≠ [] ∧ ds.all Char.isDigit :=
  tokenizeLoop_ref_digits l none (by intro a ha; cases ha) ds h

/-- C1: for every body and every old-to-new mapping, the rewriter output is
exactly the concatenation, over the match decomposition of the body, of the
per-match spec rule renderTok (a match whose parsed number is mapped becomes a
hash sign and the new number, an unmapped match stays as it was, and every
unmatched character is copied); the decomposition itself reassembles to the
original body, so no other part of the text is altered, and every match
carries one or more digits. -/
theorem c1_rewriter_rewrites_mapped_refs (m : List (Nat × Nat)) (body : List Char) :
    replaceHashRefs m body = ((tokenize body).map (renderTok m)).flatten
    ∧ ((tokenize body).map origTok).flatten = body
    ∧ ∀ ds, RefTok.ref ds ∈ tokenize body → ds ≠ [] ∧ ds.all Char.isDigit :=
  ⟨replace_eq_render m body, tokenize_orig body, fun ds h => tokenize_ref_digits body ds h⟩

/-- Witness for C1 at the example of the spec: with old 3 mapped to new 30 and
old 5 mapped to new 50, the body of issue 5 referencing old issue 3 is
rewritten to reference new issue 30, digits not forming a mapped reference
being untouched. -/
theorem c1_rewriter_rewrites_mapped_refs_witness :
    replaceHashRefs [(3, 30), (5, 50)] (String.data "Fixes #3, see 34 and #99")
        = ((tokenize (String.data "Fixes #3, see 34 and #99")).map
            (renderTok [(3, 30), (5, 50)])).flatten
    ∧ ((tokenize (String.data "Fixes #3, see 34 and #99")).map origTok).flatten
        = String.data "Fixes #3, see 34 and #99"
    ∧ String.mk (replaceHashRefs [(3, 30), (5, 50)] (String.data "Fixes #3, see 34 and #99"))
        = "Fixes #30, see 34 and #99" :=
  ⟨(c1_rewriter_rewrites_mapped_refs [(3, 30), (5, 50)] (String.data "Fixes #3, see 34 and #99")).1,
   (c1_rewriter_rewrites_mapped_refs [(3, 30), (5, 50)] (String.data "Fixes #3, see 34 and #99")).2.1,
   by decide⟩

theorem lookupA_insertA_self {κ α : Type} [DecidableEq κ] (k : κ) (v : α)
    (m : List (κ × α)) : lookupA k (insertA k v m) = some v := by
  induction m with
  | nil => simp [insertA, lookupA]
  | cons p rest ih =>
    obtain ⟨k2, v2⟩ := p
    by_cases h : k2 = k <;> simp [insertA, lookupA, h, ih]

theorem lookupA_insertA_ne {κ α : Type} [DecidableEq κ] {k k2 : κ} (hne : k2 ≠ k) (v : α)
    (m : List (κ × α)) : lookupA k (insertA k2 v m) = lookupA k m := by
  induction m with
  | nil => simp [insertA, lookupA, hne]
  | cons p rest ih =>
    obtain ⟨k3, v3⟩ := p
    by_cases h : k3 = k2
    · subst h
      simp [insertA, lookupA, hne]
    · simp [insertA, lookupA, h, ih]

theorem mem_keys_insertA {κ α : Type} [DecidableEq κ] (k x : κ) (v : α) (m : List (κ × α)) :
    x ∈ (insertA k v m).map Prod.fst ↔ x = k ∨ x ∈ m.map Prod.fst := by
  induction m with
  | nil => simp [insertA]
  | cons p rest ih =>
    obtain ⟨k2, v2⟩ := p
    by_cases h : k2 = k
    · subst h
      simp [insertA]
    · simp [insertA, h, ih]
      tauto

theorem nodup_keys_insertA {κ α : Type} [DecidableEq κ] (k : κ) (v : α) {m : List (κ × α)}
    (hm : (m.map Prod.fst).Nodup) : ((insertA k v m).map Prod.fst).Nodup := by
  induction m with
  | nil => simp [insertA]
  | cons p rest ih =>
    obtain ⟨k2, v2⟩ := p
    simp only [List.map_cons, List.nodup_cons] at hm
    by_cases h : k2 = k
    · subst h
      simpa [insertA] using hm
    · simp only [insertA, if_neg h, List.map_cons, List.nodup_cons]
      refine ⟨?_, ih hm.2⟩
      intro hmem
      rcases (mem_keys_insertA k k2 v rest).mp hmem with rfl | hmem2
      · exact h rfl
      · exact hm.1 hmem2

theorem lookupA_eq_none {κ α : Type} [DecidableEq κ] (k : κ) (m : List (κ × α)) :
    lookupA k m = none ↔ k ∉ m.map Prod.fst := by
  induction m with
  | nil => simp [lookupA]
  | cons p rest ih =>
    obtain ⟨k2, v2⟩ := p
    by_cases h : k2 = k
    · subst h
      simp [lookupA]
    · simp [lookupA, h, ih, Ne.symm h]

theorem lookupA_of_mem_nodup {κ α : Type} [DecidableEq κ] {k : κ} {v : α} {m : List (κ × α)}
    (hm : (m.map Prod.fst).Nodup) (hmem : (k, v) ∈ m) : lookupA k m = some v := by
  induction m with
  | nil => cases hmem
  | cons p rest ih =>
    obtain ⟨k2, v2⟩ := p
    simp only [List.map_cons, List.nodup_cons] at hm
    rcases List.mem_cons.mp hmem with heq | hmem2
    · cases heq
      simp [lookupA]
    · have hk : k2 ≠ k := by
        intro he
        subst he
        exact hm.1 (List.mem_map_of_mem Prod.fst hmem2)
      simp [lookupA, hk, ih hm.2 hmem2]

theorem lookupA_foldl_insertA {κ α β : Type} [DecidableEq κ] (key : β → κ) (val : β → α)
    (xs : List β) (m : List (κ × α)) (k : κ) :
    lookupA k (xs.foldl (fun acc x => insertA (key x) (val x) acc) m) =
      ((xs.reverse.find? fun x => key x == k).map val).or (lookupA k m) := by
  induction xs generalizing m with
  | nil => simp
  | cons x xs ih =>
    rw [List.foldl_cons, ih]
    rw [List.reverse_cons, List.find?_append]
    cases hf : xs.reverse.find? fun y => key y == k with
    | some y => simp
    | none =>
      by_cases hk : key x = k
      · simp [List.find?, hk, lookupA_insertA_self]
      · have hb : (key x == k) = false := by simp [hk]
        simp [List.find?, hb, lookupA_insertA_ne hk]

theorem nodup_keys_foldl_insertA {κ α β : Type} [DecidableEq κ] (key : β → κ) (val : β → α)
    (xs : List β) (m : List (κ × α)) (hm : (m.map Prod.fst).Nodup) :
    ((xs.foldl (fun acc x => insertA (key x) (val x) acc) m).map Prod.fst).Nodup := by
  induction xs generalizing m with
  | nil => simpa
  | cons x xs ih => exact ih _ (nodup_keys_insertA _ _ hm)

theorem hasHashRef_tail {c : Char} {rest : List Char} (h : hasHashRef (c :: rest) = false) :
    hasHashRef rest = false := by
  cases rest with
  | nil => rfl
  | cons d rest2 =>
    simp [hasHashRef] at h
    exact h.2

theorem replaceLoop_id_of_noref (m : List (Nat × Nat)) (l : List Char) :
    (hasHashRef l = false → replaceHashRefsLoop m none l = l)
    ∧ (hasHashRef ('#' :: l) = false → replaceHashRefsLoop m (some []) l = '#' :: l) := by
  induction l with
  | nil =>
    refine ⟨fun _ => rfl, fun _ => ?_⟩
    simp [replaceHashRefsLoop, emitMatch]
  | cons c rest ih =>
    constructor
    · intro h
      by_cases hc : c = '#'
      · subst hc
        simpa [replaceHashRefsLoop] using ih.2 h
      · simp [replaceHashRefsLoop, hc, ih.1 (hasHashRef_tail h)]
    · intro h
      have hsplit : c.isDigit = false ∧ hasHashRef (c :: rest) = false := by
        simpa [hasHashRef] using h
      obtain ⟨hd, hr⟩ := hsplit
      by_cases hc : c = '#'
      · subst hc
        simp [replaceHashRefsLoop, hd, emitMatch, ih.2 hr]
      · simp [replaceHashRefsLoop, hd, hc, emitMatch, ih.1 (hasHashRef_tail hr)]

theorem replace_id_of_noref (m : List (Nat × Nat)) (l : List Char)
    (h : hasHashRef l = false) : replaceHashRefs m l = l :=
  (replaceLoop_id_of_noref m l).1 h

/-- C6: for a source issue with an entry in the old-to-new map, updateIssueLinks
submits an edit exactly when the rewritten body differs from the original, the
edit going to the mapped new issue number and carrying the rewritten body; in
particular a body containing no substring of the hash-digits pattern is never
edited. -/
theorem c6_edit_iff_body_changed (oldToNew : List (Nat × Nat)) (issue : Issue) (newNum : Nat)
    (hmap : lookupA issue.number oldToNew = some newNum) :
    (editCallsFor oldToNew issue =
      if updateBody oldToNew issue.body = issue.body then []
      else [{ issueNumber := newNum, body := updateBody oldToNew issue.body }])
    ∧ (hasHashRef issue.body.data = false → editCallsFor oldToNew issue = [])
    ∧ updateIssueLinks oldToNew [issue] = editCallsFor oldToNew issue := by
  refine ⟨?_, ?_, by simp [updateIssueLinks]⟩
  · by_cases he : updateBody oldToNew issue.body = issue.body <;>
      simp [editCallsFor, hmap, he]
  · intro h
    have hid : updateBody oldToNew issue.body = issue.body := by
      unfold updateBody
      rw [replace_id_of_noref _ _ h]
    simp [editCallsFor, hmap, hid]

/-- Witness for C6: an issue whose body has a hash sign not followed by a digit
and no other hash; its body is unchanged by the rewrite and no edit call is
issued for it. -/
theorem c6_edit_iff_body_changed_witness :
    editCallsFor [(5, 50)]
        { number := 5, title := "t", body := "see issue# later",
          labels := [], comments := [], milestone := none } = [] :=
  (c6_edit_iff_body_changed [(5, 50)]
    { number := 5, title := "t", body := "see issue# later",
      labels := [], comments := [], milestone := none } 50 (by decide)).2.1 (by decide)

/-- C10: the replacement callback discards the parse error of strconv.Atoi;
whenever every digit run matched in the body has a value within the 64-bit
signed integer range, the parse succeeds exactly on every match, and the whole
rewrite coincides with the ideal one that parses each digit run exactly, so
the discarded error branch never changes the result. -/
theorem c10_discarded_parse_error_harmless (m : List (Nat × Nat)) (body : List Char)
    (h : ∀ ds, RefTok.ref ds ∈ tokenize body → digitsVal ds ≤ 2 ^ 63 - 1) :
    (∀ ds, RefTok.ref ds ∈ tokenize body → goAtoi ds = (digitsVal ds, true))
    ∧ replaceHashRefs m body = ((tokenize body).map (renderTokExact m)).flatten := by
  have hg : ∀ ds, RefTok.ref ds ∈ tokenize body → goAtoi ds = (digitsVal ds, true) := by
    intro ds hds
    have hb := h ds hds
    norm_num at hb
    simp [goAtoi, hb]
  refine ⟨hg, ?_⟩
  rw [replace_eq_render]
  refine congrArg List.flatten (List.map_congr_left ?_)
  intro t ht
  cases t with
  | raw c => rfl
  | ref ds =>
    have he := hg ds ht
    simp [renderTok, renderTokExact, he]

/-- Witness for C10 on a small body whose single match fits comfortably in the
machine range. -/
theorem c10_discarded_parse_error_harmless_witness :
    replaceHashRefs [(7, 70)] (String.data "go #7")
        = ((tokenize (String.data "go #7")).map (renderTokExact [(7, 70)])).flatten
    ∧ goAtoi ['7'] = (7, true) :=
  ⟨(c10_discarded_parse_error_harmless [(7, 70)] (String.data "go #7") (by
      intro ds hds
      simp [tokenize, tokenizeLoop, emitTok] at hds
      subst hds
      decide)).2,
   by decide⟩

theorem findLM_proj (issues : List Issue)
    (acc : List (String × Label) × List (String × Milestone)) :
    issues.foldl
      (fun acc issue =>
        (issue.labels.foldl (fun m l => insertA l.name l m) acc.1,
          match issue.milestone with
          | none => acc.2
          | some ms => insertA ms.title ms acc.2)) acc
      = (issues.foldl (fun m issue => issue.labels.foldl (fun m l => insertA l.name l m) m) acc.1,
          issues.foldl
            (fun m issue =>
              match issue.milestone with
              | none => m
              | some ms => insertA ms.title ms m) acc.2) := by
  induction issues generalizing acc with
  | nil => rfl
  | cons i issues ih => simp [List.foldl_cons, ih]

theorem foldl_labels_flatMap (issues : List Issue) (m : List (String × Label)) :
    issues.foldl (fun m issue => issue.labels.foldl (fun m l => insertA l.name l m) m) m
      = (issues.flatMap Issue.labels).foldl (fun m l => insertA l.name l m) m := by
  induction issues generalizing m with
  | nil => simp
  | cons i issues ih => simp [List.flatMap_cons, List.foldl_append, ih]

theorem foldl_milestones_filterMap (issues : List Issue) (m : List (String × Milestone)) :
    issues.foldl
        (fun m issue =>
          match issue.milestone with
          | none => m
          | some ms => insertA ms.title ms m) m
      = (issues.filterMap Issue.milestone).foldl (fun m ms => insertA ms.title ms m) m := by
  induction issues generalizing m with
  | nil => simp
  | cons i issues ih =>
    cases h : i.milestone with
    | none => simp [List.filterMap_cons, h, ih]
    | some ms => simp [List.filterMap_cons, h, ih]

/-- C5: the Metadata Collector returns label entries with pairwise distinct
name keys and milestone entries with pairwise distinct title keys; looking a
name up yields exactly the last label with that name across all issues in
iteration order (none when the name never occurs), likewise for milestone
titles, and the empty input yields two empty sets. -/
theorem c5_collector_dedupes_last_wins (issues : List Issue) (name title : String) :
    ((findLablesAndMilestones issues).1.map Prod.fst).Nodup
    ∧ ((findLablesAndMilestones issues).2.map Prod.fst).Nodup
    ∧ lookupA name (findLablesAndMilestones issues).1
        = ((issues.flatMap Issue.labels).reverse.find? fun l => l.name == name)
    ∧ lookupA title (findLablesAndMilestones issues).2
        = ((issues.filterMap Issue.milestone).reverse.find? fun ms => ms.title == title)
    ∧ findLablesAndMilestones [] = ([], []) := by
  have hfst : (findLablesAndMilestones issues).1
      = (issues.flatMap Issue.labels).foldl (fun m l => insertA l.name l m) [] := by
    rw [findLablesAndMilestones, findLM_proj, foldl_labels_flatMap]
  have hsnd : (findLablesAndMilestones issues).2
      = (issues.filterMap Issue.milestone).foldl (fun m ms => insertA ms.title ms m) [] := by
    rw [findLablesAndMilestones, findLM_proj, foldl_milestones_filterMap]
  refine ⟨?_, ?_, ?_, ?_, rfl⟩
  · rw [hfst]
    exact nodup_keys_foldl_insertA Label.name (fun l => l) _ [] (by simp)
  · rw [hsnd]
    exact nodup_keys_foldl_insertA Milestone.title (fun ms => ms) _ [] (by simp)
  · rw [hfst]
    have h := lookupA_foldl_insertA Label.name (fun l => l) (issues.flatMap Issue.labels) [] name
    simpa [lookupA, Option.or_none] using h
  · rw [hsnd]
    have h := lookupA_foldl_insertA Milestone.title (fun ms => ms)
      (issues.filterMap Issue.milestone) [] title
    simpa [lookupA, Option.or_none] using h

/-- Witness for C5: two issues both carrying a label named bug with different
colors; the collected set has one entry for bug, carrying the fields of the
last occurrence. -/
theorem c5_collector_dedupes_last_wins_witness :
    lookupA "bug" (findLablesAndMilestones
        [{ number := 1, title := "a", body := "", comments := [], milestone := none,
           labels := [{ name := "bug", color := "red", description := "x" }] },
         { number := 2, title := "b", body := "", comments := [], milestone := none,
           labels := [{ name := "bug", color := "blue", description := "y" }] }]).1
      = (([{ number := 1, title := "a", body := "", comments := [], milestone := none,
             labels := [{ name := "bug", color := "red", description := "x" }] },
           { number := 2, title := "b", body := "", comments := [], milestone := none,
             labels := [{ name := "bug", color := "blue", description := "y" }] }].flatMap
              Issue.labels).reverse.find? fun l => l.name == "bug")
    ∧ lookupA "bug" (findLablesAndMilestones
        [{ number := 1, title := "a", body := "", comments := [], milestone := none,
           labels := [{ name := "bug", color := "red", description := "x" }] },
         { number := 2, title := "b", body := "", comments := [], milestone := none,
           labels := [{ name := "bug", color := "blue", description := "y" }] }]).1
      = some { name := "bug", color := "blue", description := "y" } :=
  ⟨(c5_collector_dedupes_last_wins _ "bug" "v").2.2.1, by decide⟩

theorem foldl_append_map {α β : Type} (f : α → β) (xs : List α) (acc : List β) :
    xs.foldl (fun acc x => acc ++ [f x]) acc = acc ++ xs.map f := by
  induction xs generalizing acc with
  | nil => simp
  | cons x xs ih => simp [ih]

/-- C8: the creation request built for a source issue carries the issue title,
the body unmodified, the label names in their original order, and a milestone
number exactly when the issue has a milestone whose title is in the
title-to-number map. -/
theorem c8_issue_request_fields (mtn : List (String × Nat)) (issue : Issue) :
    (buildIssueRequest mtn issue).title = issue.title
    ∧ (buildIssueRequest mtn issue).body = issue.body
    ∧ (buildIssueRequest mtn issue).labels = issue.labels.map Label.name
    ∧ ∀ k : Nat, (buildIssueRequest mtn issue).milestone = some k ↔
        ∃ ms, issue.milestone = some ms ∧ lookupA ms.title mtn = some k := by
  refine ⟨rfl, rfl, ?_, ?_⟩
  · simp [buildIssueRequest, foldl_append_map]
  · intro k
    cases hms : issue.milestone with
    | none => simp [buildIssueRequest, hms]
    | some ms =>
      cases hl : lookupA ms.title mtn with
      | none => simp [buildIssueRequest, hms, hl]
      | some n => simp [buildIssueRequest, hms, hl]

/-- Witness for C8: an issue whose milestone title is absent from the map gets
a request without a milestone, and the label names are carried in order. -/
theorem c8_issue_request_fields_witness :
    (buildIssueRequest [("v2", 4)]
        { number := 1, title := "a", body := "b",
          labels := [{ name := "x", color := "", description := "" },
                     { name := "y", color := "", description := "" }],
          comments := [], milestone := some { title := "v1", description := "", dueOn := none } }).labels
      = [{ name := "x", color := "", description := "" },
         { name := "y", color := "", description := "" }].map Label.name
    ∧ (buildIssueRequest [("v2", 4)]
        { number := 1, title := "a", body := "b",
          labels := [{ name := "x", color := "", description := "" },
                     { name := "y", color := "", description := "" }],
          comments := [], milestone := some { title := "v1", description := "", dueOn := none } }).milestone
      = none :=
  ⟨(c8_issue_request_fields [("v2", 4)] _).2.2.1, by decide⟩

theorem consolidatedCommentBody_data (cs : List Comment) :
    (consolidatedCommentBody cs).data
      = "### Comments from original issue:\n\n---\n\n".data
        ++ (cs.map fun c => (commentBlock c).data).flatten := by
  suffices h : ∀ a : String, (cs.foldl (fun acc c => acc ++ commentBlock c) a).data
      = a.data ++ (cs.map fun c => (commentBlock c).data).flatten from h _
  induction cs with
  | nil => intro a; simp
  | cons c cs ih => intro a; simp [List.foldl_cons, ih]

/-- C3: for a created issue, exactly one consolidated comment call is made when
the source issue has at least one comment and none when it has none; the call
goes to the new issue number and its body is the fixed header followed, for
each original comment in order, by its attribution-body-separator block. -/
theorem c3_single_consolidated_comment (issue : Issue) (n : Nat) :
    (commentCallsFor issue n).length = (if issue.comments.isEmpty then 0 else 1)
    ∧ ∀ call ∈ commentCallsFor issue n,
        call.issueNumber = n
        ∧ call.body.data
            = "### Comments from original issue:\n\n---\n\n".data
              ++ (issue.comments.map fun c => (commentBlock c).data).flatten := by
  by_cases hc : issue.comments = []
  · simp [commentCallsFor, hc]
  · have h1 : 0 < issue.comments.length := List.length_pos.mpr hc
    have hlen : 0 < (consolidatedCommentBody issue.comments).length := by
      show 0 < (consolidatedCommentBody issue.comments).data.length
      rw [consolidatedCommentBody_data, List.length_append]
      have h41 : 0 < "### Comments from original issue:\n\n---\n\n".data.length := by decide
      omega
    constructor
    · simp [commentCallsFor, h1, hlen, hc]
    · intro call hcall
      simp [commentCallsFor, h1, hlen] at hcall
      subst hcall
      exact ⟨rfl, consolidatedCommentBody_data issue.comments⟩

set_option maxRecDepth 10000 in
/-- Witness for C3 at the example of the spec: three comments by alice, bob
and alice give one single consolidated comment, with the three attribution
blocks in original order inside one header framing. -/
theorem c3_single_consolidated_comment_witness :
    (commentCallsFor
        { number := 1, title := "a", body := "", labels := [], milestone := none,
          comments := [{ body := "first", author := { login := "alice" } },
                       { body := "second", author := { login := "bob" } },
                       { body := "third", author := { login := "alice" } }] } 9).length = 1
    ∧ commentCallsFor
        { number := 1, title := "a", body := "", labels := [], milestone := none,
          comments := [{ body := "first", author := { login := "alice" } },
                       { body := "second", author := { login := "bob" } },
                       { body := "third", author := { login := "alice" } }] } 9
      = [{ issueNumber := 9,
           body := "### Comments from original issue:\n\n---\n\n**Comment from @alice:**\n\nfirst\n\n---\n\n**Comment from @bob:**\n\nsecond\n\n---\n\n**Comment from @alice:**\n\nthird\n\n---\n\n" }] :=
  ⟨((c3_single_consolidated_comment
      { number := 1, title := "a", body := "", labels := [], milestone := none,
        comments := [{ body := "first", author := { login := "alice" } },
                     { body := "second", author := { login := "bob" } },
                     { body := "third", author := { login := "alice" } }] } 9).1).trans
    (by decide), by decide⟩

theorem createLabelsLoop_eq_filterMap (existing : List String) (o : Label → Bool)
    (labels : List (String × Label)) :
    createLabelsLoop existing o labels
      = labels.filterMap fun p => if existing.contains p.1 then none else some p.2 := by
  induction labels with
  | nil => rfl
  | cons p rest ih =>
    obtain ⟨name, label⟩ := p
    by_cases h : name ∈ existing
    · have hc : existing.contains name = true := by simpa using h
      simp [createLabelsLoop, hc, h, ih, List.filterMap_cons]
    · have hc : ¬existing.contains name = true := by simpa using h
      simp [createLabelsLoop, hc, h, ih, List.filterMap_cons]

/-- C9: label provisioning issues one creation call per collected label absent
from the fetched existing names and its result does not depend on which
creation attempts fail (a failed attempt is skipped and the remaining labels
are still processed); it returns success whenever the initial fetch succeeded,
and returns an error exactly when the fetch failed. -/
theorem c9_label_creation_failure_nonfatal (labels : List (String × Label))
    (existing : List String) (o1 o2 : Label → Bool) :
    createLabels (some existing) o1 labels
        = Except.ok (labels.filterMap fun p =>
            if existing.contains p.1 then none else some p.2)
    ∧ createLabels (some existing) o1 labels = createLabels (some existing) o2 labels
    ∧ createLabels none o1 labels = Except.error "failed to fetch existing labels" := by
  refine ⟨?_, ?_, rfl⟩
  · simp [createLabels, createLabelsLoop_eq_filterMap]
  · simp [createLabels, createLabelsLoop_eq_filterMap]

/-- Witness for C9: with one existing label name, only the missing label is
requested, whether or not its creation succeeds. -/
theorem c9_label_creation_failure_nonfatal_witness :
    createLabels (some ["bug"]) (fun _ => false)
        [("bug", { name := "bug", color := "red", description := "" }),
         ("new", { name := "new", color := "blue", description := "" })]
      = Except.ok [{ name := "new", color := "blue", description := "" }] :=
  ((c9_label_creation_failure_nonfatal
      [("bug", { name := "bug", color := "red", description := "" }),
       ("new", { name := "new", color := "blue", description := "" })]
      ["bug"] (fun _ => false) (fun _ => true)).1).trans (congrArg Except.ok (by decide))

/-- C7: a milestone whose due-date text fails to parse is still created; its
request carries the title and description but no due date, and the loop
continues with the remaining milestones instead of aborting. -/
theorem c7_unparsable_due_date_nonfatal (parseTime : String → Option Nat)
    (createOutcome : MilestoneRequest → Option CreatedMilestone)
    (title : String) (ms : Milestone) (d : String) (rest : List (String × Milestone))
    (m : List (String × Nat))
    (hdue : ms.dueOn = some d) (hfail : parseTime d = none)
    (hnew : lookupA title m = none) :
    (buildMilestoneRequest parseTime ms).title = ms.title
    ∧ (buildMilestoneRequest parseTime ms).description = ms.description
    ∧ (buildMilestoneRequest parseTime ms).dueOn = none
    ∧ (createMilestonesLoop parseTime createOutcome ((title, ms) :: rest) m).2
        = buildMilestoneRequest parseTime ms ::
            (createMilestonesLoop parseTime createOutcome rest
              (match createOutcome (buildMilestoneRequest parseTime ms) with
               | none => m
               | some created => insertA created.title created.number m)).2 := by
  refine ⟨rfl, rfl, ?_, ?_⟩
  · simp [buildMilestoneRequest, hdue, hfail]
  · cases hc : createOutcome (buildMilestoneRequest parseTime ms) with
    | none => simp [createMilestonesLoop, hnew, hc]
    | some created => simp [createMilestonesLoop, hnew, hc]

/-- Witness for C7: a due date the parser rejects still yields one creation
request, without a due date. -/
theorem c7_unparsable_due_date_nonfatal_witness :
    (buildMilestoneRequest (fun _ => none)
        { title := "v1", description := "d", dueOn := some "bad" }).dueOn = none
    ∧ (createMilestonesLoop (fun _ => none) (fun _ => none)
        [("v1", { title := "v1", description := "d", dueOn := some "bad" })] []).2
      = [buildMilestoneRequest (fun _ => none)
          { title := "v1", description := "d", dueOn := some "bad" }] := by
  have h := c7_unparsable_due_date_nonfatal (fun _ => none) (fun _ => none) "v1"
    { title := "v1", description := "d", dueOn := some "bad" } "bad" [] [] rfl rfl rfl
  exact ⟨h.2.2.1, by simpa using h.2.2.2⟩

theorem eq_of_nodup_map {α β : Type} {f : α → β} {l : List α} (h : (l.map f).Nodup)
    {a b : α} (ha : a ∈ l) (hb : b ∈ l) (hf : f a = f b) : a = b := by
  induction l with
  | nil => cases ha
  | cons x xs ih =>
    simp only [List.map_cons, List.nodup_cons] at h
    rcases List.mem_cons.mp ha with rfl | ha2
    · rcases List.mem_cons.mp hb with rfl | hb2
      · rfl
      · exfalso
        apply h.1
        rw [hf]
        exact List.mem_map_of_mem f hb2
    · rcases List.mem_cons.mp hb with rfl | hb2
      · exfalso
        apply h.1
        rw [← hf]
        exact List.mem_map_of_mem f ha2
      · exact ih h.2 ha2 hb2

theorem createIACLoop_skip (mtn : List (String × Nat)) (co : IssueRequest → Option Nat)
    {si : Issue} (hfail : co (buildIssueRequest mtn si) = none) :
    ∀ (issues : List Issue) (m : List (Nat × Nat)) (cs : List CommentCall), si ∈ issues →
      createIssueAndCommentLoop mtn co issues m cs
        = createIssueAndCommentLoop mtn co (issues.erase si) m cs := by
  intro issues
  induction issues with
  | nil => intro m cs h; cases h
  | cons a rest ih =>
    intro m cs hmem
    by_cases ha : a = si
    · subst ha
      rw [List.erase_cons_head]
      simp [createIssueAndCommentLoop, hfail]
    · have hmem2 : si ∈ rest := by
        rcases List.mem_cons.mp hmem with h | h
        · exact absurd h.symm ha
        · exact h
      rw [List.erase_cons_tail (by simpa using ha)]
      cases hc : co (buildIssueRequest mtn a) with
      | none => simp [createIssueAndCommentLoop, hc, ih _ _ hmem2]
      | some k => simp [createIssueAndCommentLoop, hc, ih _ _ hmem2]

theorem createIACLoop_lookup_none (mtn : List (String × Nat)) (co : IssueRequest → Option Nat)
    (n : Nat) :
    ∀ (issues : List Issue) (m : List (Nat × Nat)) (cs : List CommentCall),
      lookupA n m = none →
      (∀ a ∈ issues, a.number = n → co (buildIssueRequest mtn a) = none) →
      lookupA n (createIssueAndCommentLoop mtn co issues m cs).1 = none := by
  intro issues
  induction issues with
  | nil => intro m cs hm _; exact hm
  | cons a rest ih =>
    intro m cs hm hall
    cases hc : co (buildIssueRequest mtn a) with
    | none =>
      simp only [createIssueAndCommentLoop, hc]
      exact ih _ _ hm fun b hb => hall b (List.mem_cons_of_mem a hb)
    | some k =>
      have han : a.number ≠ n := by
        intro he
        rw [hall a (List.mem_cons_self a rest) he] at hc
        cases hc
      simp only [createIssueAndCommentLoop, hc]
      refine ih _ _ ?_ fun b hb => hall b (List.mem_cons_of_mem a hb)
      rw [lookupA_insertA_ne han k m]
      exact hm

/-- C2: when the remote creation of a source issue fails, the replicator
records no old-to-new entry for its number and posts no comment for it: the
whole phase behaves as if the issue were absent from the input; consequently
any match whose parsed number is that issue number is left unchanged by the
per-match rewrite rule of the rewriter. -/
theorem c2_creation_failure_skips_issue (mtn : List (String × Nat))
    (createOutcome : IssueRequest → Option Nat) (issues : List Issue) (si : Issue)
    (hmem : si ∈ issues)
    (hnodup : (issues.map Issue.number).Nodup)
    (hfail : createOutcome (buildIssueRequest mtn si) = none) :
    lookupA si.number (createIssueAndComment mtn createOutcome issues).1 = none
    ∧ createIssueAndComment mtn createOutcome issues
        = createIssueAndComment mtn createOutcome (issues.erase si)
    ∧ ∀ ds : List Char, (goAtoi ds).1 = si.number →
        renderTok (createIssueAndComment mtn createOutcome issues).1 (RefTok.ref ds)
          = '#' :: ds := by
  have hall : ∀ a ∈ issues, a.number = si.number →
      createOutcome (buildIssueRequest mtn a) = none := by
    intro a ha he
    have : a = si := eq_of_nodup_map hnodup ha hmem he
    rw [this]
    exact hfail
  have hnone : lookupA si.number (createIssueAndComment mtn createOutcome issues).1 = none :=
    createIACLoop_lookup_none mtn createOutcome si.number issues [] [] rfl hall
  refine ⟨hnone, ?_, ?_⟩
  · exact createIACLoop_skip mtn createOutcome hfail issues [] [] hmem
  · intro ds hds
    simp [renderTok, hds, hnone]

/-- Witness for C2: issue 3 fails to be created while issue 5 succeeds; 3 has
no entry in the map and a match carrying number 3 is left as it was. -/
theorem c2_creation_failure_skips_issue_witness :
    lookupA 3 (createIssueAndComment []
        (fun req => if req.title = "ok" then some 50 else none)
        [{ number := 5, title := "ok", body := "see #3", labels := [], comments := [],
           milestone := none },
         { number := 3, title := "bad", body := "", labels := [], comments := [],
           milestone := none }]).1 = none
    ∧ renderTok (createIssueAndComment []
        (fun req => if req.title = "ok" then some 50 else none)
        [{ number := 5, title := "ok", body := "see #3", labels := [], comments := [],
           milestone := none },
         { number := 3, title := "bad", body := "", labels := [], comments := [],
           milestone := none }]).1 (RefTok.ref ['3']) = ['#', '3'] :=
  ⟨(c2_creation_failure_skips_issue []
      (fun req => if req.title = "ok" then some 50 else none)
      [{ number := 5, title := "ok", body := "see #3", labels := [], comments := [],
         milestone := none },
       { number := 3, title := "bad", body := "", labels := [], comments := [],
         milestone := none }]
      { number := 3, title := "bad", body := "", labels := [], comments := [],
        milestone := none }
      (by decide) (by decide) (by decide)).1,
   (c2_creation_failure_skips_issue []
      (fun req => if req.title = "ok" then some 50 else none)
      [{ number := 5, title := "ok", body := "see #3", labels := [], comments := [],
         milestone := none },
       { number := 3, title := "bad", body := "", labels := [], comments := [],
         milestone := none }]
      { number := 3, title := "bad", body := "", labels := [], comments := [],
        milestone := none }
      (by decide) (by decide) (by decide)).2.2 ['3'] (by decide)⟩

theorem createMSLoop_preserve_some (parseTime : String → Option Nat)
    (co : MilestoneRequest → Option CreatedMilestone)
    (hecho : ∀ req created, co req = some created → created.title = req.title) :
    ∀ (entries : List (String × Milestone)) (m : List (String × Nat)) (t : String) (v : Nat),
      lookupA t m = some v →
      (∀ p ∈ entries, p.2.title = p.1) →
      lookupA t (createMilestonesLoop parseTime co entries m).1 = some v := by
  intro entries
  induction entries with
  | nil => intro m t v hm _; exact hm
  | cons p rest ih =>
    intro m t v hm htitle
    obtain ⟨k, ms⟩ := p
    have htrest : ∀ q ∈ rest, q.2.title = q.1 :=
      fun q hq => htitle q (List.mem_cons_of_mem _ hq)
    by_cases hg : (lookupA k m).isSome = true
    · simp only [createMilestonesLoop, hg, if_true]
      exact ih m t v hm htrest
    · have hknone : lookupA k m = none := Option.not_isSome_iff_eq_none.mp hg
      have htk : k ≠ t := by
        intro he
        rw [he, hm] at hknone
        cases hknone
      cases hc : co (buildMilestoneRequest parseTime ms) with
      | none =>
        simp only [createMilestonesLoop, hg, if_false, hc]
        exact ih m t v hm htrest
      | some created =>
        have hct : created.title = k := by
          rw [hecho _ _ hc]
          exact htitle (k, ms) (List.mem_cons_self _ _)
        simp only [createMilestonesLoop, hg, if_false, hc]
        refine ih _ t v ?_ htrest
        rw [hct, lookupA_insertA_ne htk _ m]
        exact hm

theorem createMSLoop_fresh_none (parseTime : String → Option Nat)
    (co : MilestoneRequest → Option CreatedMilestone)
    (hecho : ∀ req created, co req = some created → created.title = req.title) :
    ∀ (entries : List (String × Milestone)) (m : List (String × Nat)) (t : String),
      lookupA t m = none →
      (∀ p ∈ entries, p.1 ≠ t) →
      (∀ p ∈ entries, p.2.title = p.1) →
      lookupA t (createMilestonesLoop parseTime co entries m).1 = none := by
  intro entries
  induction entries with
  | nil => intro m t hm _ _; exact hm
  | cons p rest ih =>
    intro m t hm hne htitle
    obtain ⟨k, ms⟩ := p
    have htrest : ∀ q ∈ rest, q.2.title = q.1 :=
      fun q hq => htitle q (List.mem_cons_of_mem _ hq)
    have hnerest : ∀ q ∈ rest, q.1 ≠ t :=
      fun q hq => hne q (List.mem_cons_of_mem _ hq)
    have hkt : k ≠ t := hne (k, ms) (List.mem_cons_self _ _)
    by_cases hg : (lookupA k m).isSome = true
    · simp only [createMilestonesLoop, hg, if_true]
      exact ih m t hm hnerest htrest
    · cases hc : co (buildMilestoneRequest parseTime ms) with
      | none =>
        simp only [createMilestonesLoop, hg, if_false, hc]
        exact ih m t hm hnerest htrest
      | some created =>
        have hct : created.title = k := by
          rw [hecho _ _ hc]
          exact htitle (k, ms) (List.mem_cons_self _ _)
        simp only [createMilestonesLoop, hg, if_false, hc]
        refine ih _ t ?_ hnerest htrest
        rw [hct, lookupA_insertA_ne hkt _ m]
        exact hm

theorem createMSLoop_calls_fresh (parseTime : String → Option Nat)
    (co : MilestoneRequest → Option CreatedMilestone)
    (hecho : ∀ req created, co req = some created → created.title = req.title) :
    ∀ (entries : List (String × Milestone)) (m : List (String × Nat)) (t : String),
      (lookupA t m).isSome = true →
      (∀ p ∈ entries, p.2.title = p.1) →
      ∀ req ∈ (createMilestonesLoop parseTime co entries m).2, req.title ≠ t := by
  intro entries
  induction entries with
  | nil => intro m t _ _ req hreq; cases hreq
  | cons p rest ih =>
    intro m t hm htitle req hreq
    obtain ⟨k, ms⟩ := p
    have htrest : ∀ q ∈ rest, q.2.title = q.1 :=
      fun q hq => htitle q (List.mem_cons_of_mem _ hq)
    by_cases hg : (lookupA k m).isSome = true
    · simp only [createMilestonesLoop, hg, if_true] at hreq
      exact ih m t hm htrest req hreq
    · have hknone : lookupA k m = none := Option.not_isSome_iff_eq_none.mp hg
      have hkt : k ≠ t := by
        intro he
        rw [he] at hknone
        rw [hknone] at hm
        cases hm
      have hreqtitle : (buildMilestoneRequest parseTime ms).title = k :=
        htitle (k, ms) (List.mem_cons_self _ _)
      cases hc : co (buildMilestoneRequest parseTime ms) with
      | none =>
        simp [createMilestonesLoop, hg, hc] at hreq
        rcases hreq with hreqq | hreq
        · subst hreqq
          rw [hreqtitle]
          exact hkt
        · exact ih m t hm htrest req hreq
      | some created =>
        have hct : created.title = k := by
          rw [hecho _ _ hc]
          exact hreqtitle
        simp [createMilestonesLoop, hg, hc] at hreq
        rcases hreq with hreqq | hreq
        · subst hreqq
          rw [hreqtitle]
          exact hkt
        · refine ih _ t ?_ htrest req hreq
          rw [hct, lookupA_insertA_ne hkt _ m]
          exact hm

theorem createMSLoop_created_lookup (parseTime : String → Option Nat)
    (co : MilestoneRequest → Option CreatedMilestone)
    (hecho : ∀ req created, co req = some created → created.title = req.title) :
    ∀ (entries : List (String × Milestone)) (m : List (String × Nat))
      (title : String) (ms : Milestone),
      lookupA title m = none →
      (title, ms) ∈ entries →
      (entries.map Prod.fst).Nodup →
      (∀ p ∈ entries, p.2.title = p.1) →
      lookupA title (createMilestonesLoop parseTime co entries m).1
        = (co (buildMilestoneRequest parseTime ms)).map CreatedMilestone.number := by
  intro entries
  induction entries with
  | nil => intro m title ms _ hmem; cases hmem
  | cons p rest ih =>
    intro m title ms hm hmem hnodup htitle
    obtain ⟨k, ms2⟩ := p
    simp only [List.map_cons, List.nodup_cons] at hnodup
    have htrest : ∀ q ∈ rest, q.2.title = q.1 :=
      fun q hq => htitle q (List.mem_cons_of_mem _ hq)
    by_cases hk : k = title
    · subst hk
      have hms : ms2 = ms := by
        rcases List.mem_cons.mp hmem with he | hr
        · cases he
          rfl
        · exfalso
          exact hnodup.1 (List.mem_map_of_mem Prod.fst hr)
      subst hms
      have hg : ¬(lookupA k m).isSome = true := by
        rw [hm]
        simp
      cases hc : co (buildMilestoneRequest parseTime ms2) with
      | none =>
        simp only [createMilestonesLoop, hg, if_false, hc, Option.map_none']
        exact createMSLoop_fresh_none parseTime co hecho rest m k hm
          (fun q hq hq2 => hnodup.1 (hq2 ▸ List.mem_map_of_mem Prod.fst hq)) htrest
      | some created =>
        have hct : created.title = k := by
          rw [hecho _ _ hc]
          exact htitle (k, ms2) (List.mem_cons_self _ _)
        simp only [createMilestonesLoop, hg, if_false, hc, Option.map_some']
        refine createMSLoop_preserve_some parseTime co hecho rest _ k created.number ?_ htrest
        rw [hct]
        exact lookupA_insertA_self k created.number m
    · have hr : (title, ms) ∈ rest := by
        rcases List.mem_cons.mp hmem with he | hr
        · cases he
          exact absurd rfl hk
        · exact hr
      by_cases hg : (lookupA k m).isSome = true
      · simp only [createMilestonesLoop, hg, if_true]
        exact ih m title ms hm hr hnodup.2 htrest
      · cases hc : co (buildMilestoneRequest parseTime ms2) with
        | none =>
          simp only [createMilestonesLoop, hg, if_false, hc]
          exact ih m title ms hm hr hnodup.2 htrest
        | some created =>
          have hct : created.title = k := by
            rw [hecho _ _ hc]
            exact htitle (k, ms2) (List.mem_cons_self _ _)
          simp only [createMilestonesLoop, hg, if_false, hc]
          refine ih _ title ms ?_ hr hnodup.2 htrest
          rw [hct, lookupA_insertA_ne hk _ m]
          exact hm

theorem lookupA_preseed_of_mem (existing : List (String × Nat))
    (hex : (existing.map Prod.fst).Nodup) {q : String × Nat} (hq : q ∈ existing) :
    lookupA q.1 (preseedMilestones existing) = some q.2 := by
  unfold preseedMilestones
  rw [lookupA_foldl_insertA Prod.fst Prod.snd existing [] q.1]
  cases hf : existing.reverse.find? fun x => x.1 == q.1 with
  | none =>
    exfalso
    rw [List.find?_eq_none] at hf
    exact hf q (List.mem_reverse.mpr hq) (by simp)
  | some p =>
    have hp1 : p.1 = q.1 := by simpa using List.find?_some hf
    have hpm : p ∈ existing := List.mem_reverse.mp (List.mem_of_find?_eq_some hf)
    have hpq : p = q := eq_of_nodup_map hex hpm hq hp1
    subst hpq
    simp [lookupA]

theorem lookupA_preseed_isSome (existing : List (String × Nat)) {q : String × Nat}
    (hq : q ∈ existing) : (lookupA q.1 (preseedMilestones existing)).isSome = true := by
  unfold preseedMilestones
  rw [lookupA_foldl_insertA Prod.fst Prod.snd existing [] q.1]
  cases hf : existing.reverse.find? fun x => x.1 == q.1 with
  | none =>
    exfalso
    rw [List.find?_eq_none] at hf
    exact hf q (List.mem_reverse.mpr hq) (by simp)
  | some p => simp

theorem lookupA_preseed_none (existing : List (String × Nat)) (title : String)
    (h : ∀ q ∈ existing, q.1 ≠ title) :
    lookupA title (preseedMilestones existing) = none := by
  unfold preseedMilestones
  rw [lookupA_foldl_insertA Prod.fst Prod.snd existing [] title]
  have hf : (existing.reverse.find? fun x => x.1 == title) = none := by
    rw [List.find?_eq_none]
    intro x hx
    simpa using h x (List.mem_reverse.mp hx)
  simp [hf, lookupA]

/-- C4: against a well-behaved collaborator (a successful creation returns the
requested title), milestone provisioning never issues a creation request whose
title is already among the existing milestones; the returned map keeps every
existing milestone under its identifier; and for a collected milestone whose
title is not among the existing ones, the final map has the created number
under that title exactly when its creation succeeded, and no entry when it
failed.  The hypotheses on the collected list (distinct keys equal to the
milestone titles) hold for the output of the Collector. -/
theorem c4_milestone_provisioning_no_duplicates (existing : List (String × Nat))
    (parseTime : String → Option Nat)
    (createOutcome : MilestoneRequest → Option CreatedMilestone)
    (milestones : List (String × Milestone))
    (hecho : ∀ req created, createOutcome req = some created → created.title = req.title)
    (hkeys : (milestones.map Prod.fst).Nodup)
    (htitle : ∀ p ∈ milestones, p.2.title = p.1)
    (hex : (existing.map Prod.fst).Nodup) :
    (∀ req ∈ (createMilestonesLoop parseTime createOutcome milestones
        (preseedMilestones existing)).2, ∀ q ∈ existing, req.title ≠ q.1)
    ∧ (∀ q ∈ existing,
        lookupA q.1 (createMilestonesLoop parseTime createOutcome milestones
          (preseedMilestones existing)).1 = some q.2)
    ∧ (∀ title ms, (title, ms) ∈ milestones → (∀ q ∈ existing, q.1 ≠ title) →
        lookupA title (createMilestonesLoop parseTime createOutcome milestones
          (preseedMilestones existing)).1
          = (createOutcome (buildMilestoneRequest parseTime ms)).map CreatedMilestone.number)
    ∧ createMilestones (some existing) parseTime createOutcome milestones
        = Except.ok (createMilestonesLoop parseTime createOutcome milestones
            (preseedMilestones existing)) := by
  refine ⟨?_, ?_, ?_, rfl⟩
  · intro req hreq q hq
    exact createMSLoop_calls_fresh parseTime createOutcome hecho milestones
      (preseedMilestones existing) q.1 (lookupA_preseed_isSome existing hq) htitle req hreq
  · intro q hq
    exact createMSLoop_preserve_some parseTime createOutcome hecho milestones
      (preseedMilestones existing) q.1 q.2 (lookupA_preseed_of_mem existing hex hq) htitle
  · intro title ms hmem hfresh
    exact createMSLoop_created_lookup parseTime createOutcome hecho milestones
      (preseedMilestones existing) title ms (lookupA_preseed_none existing title hfresh)
      hmem hkeys htitle

/-- Witness for C4: one existing milestone v0 kept under its number, one
collected milestone v1 whose creation succeeds and lands in the map, one
collected milestone v2 whose creation fails and stays absent, and no creation
request carries the title v0. -/
theorem c4_milestone_provisioning_no_duplicates_witness :
    lookupA "v0" (createMilestonesLoop (fun _ => none)
        (fun req => if req.title = "v1" then some { title := req.title, number := 2 } else none)
        [("v0", { title := "v0", description := "", dueOn := none }),
         ("v1", { title := "v1", description := "", dueOn := none }),
         ("v2", { title := "v2", description := "", dueOn := none })]
        (preseedMilestones [("v0", 1)])).1 = some 1
    ∧ lookupA "v1" (createMilestonesLoop (fun _ => none)
        (fun req => if req.title = "v1" then some { title := req.title, number := 2 } else none)
        [("v0", { title := "v0", description := "", dueOn := none }),
         ("v1", { title := "v1", description := "", dueOn := none }),
         ("v2", { title := "v2", description := "", dueOn := none })]
        (preseedMilestones [("v0", 1)])).1 = some 2
    ∧ lookupA "v2" (createMilestonesLoop (fun _ => none)
        (fun req => if req.title = "v1" then some { title := req.title, number := 2 } else none)
        [("v0", { title := "v0", description := "", dueOn := none }),
         ("v1", { title := "v1", description := "", dueOn := none }),
         ("v2", { title := "v2", description := "", dueOn := none })]
        (preseedMilestones [("v0", 1)])).1 = none := by
  have hecho : ∀ (req : MilestoneRequest) (created : CreatedMilestone),
      (if req.title = "v1" then some { title := req.title, number := 2 } else none)
        = some created → created.title = req.title := by
    intro req created h
    by_cases ht : req.title = "v1"
    · rw [if_pos ht] at h
      cases h
      rfl
    · rw [if_neg ht] at h
      cases h
  have h := c4_milestone_provisioning_no_duplicates [("v0", 1)] (fun _ => none)
    (fun req => if req.title = "v1" then some { title := req.title, number := 2 } else none)
    [("v0", { title := "v0", description := "", dueOn := none }),
     ("v1", { title := "v1", description := "", dueOn := none }),
     ("v2", { title := "v2", description := "", dueOn := none })]
    hecho (by decide) (by decide) (by decide)
  refine ⟨h.2.1 ("v0", 1) (by decide), ?_, ?_⟩
  · have h2 := h.2.2.1 "v1" { title := "v1", description := "", dueOn := none }
      (by decide) (by decide)
    exact h2.trans (by decide)
  · have h3 := h.2.2.1 "v2" { title := "v2", description := "", dueOn := none }
      (by decide) (by decide)
    exact h3.trans (by decide)

end Migrate
